import Mathlib

/-!
Verification development for the normalisation/realisation engine of
`src/fstate.cc` (an early purely-functional build engine).

The C++ source is shallowly embedded: the untyped ATerm expressions are
modelled by a typed variant `FTerm` (with a `bad` case for terms that match
none of the documented shapes), content hashes (`FSId`) are natural numbers,
the filesystem is an association list from absolute paths to the content
hash of what currently sits at that path, and the two database tables
(`dbPath2Id`, `dbSuccessors`) are association lists.  Stateful C++ code
becomes explicit state passing with results in `Except NixError`.  The
unbounded successor `while` loop of `normaliseFState` and its recursion
into inputs are given a fuel parameter; exhausting the fuel yields the
distinguished outcome `NixError.outOfFuel`, which models divergence of the
C++ loop (a genuine C++ exception is never modelled by `outOfFuel`).

External collaborators that are not part of `src/` (the blob store's
`expandId`, `pathExists`, `registerPath`, the db primitives) are modelled
from the spec, as documented on each definition.
-/

namespace Fstate

/-- A content hash / expression id (`FSId` in the source); opaque and
comparable, modelled as a natural number. -/
abbrev FSId := Nat

/-- `SliceElem` from `fstate.hh`: a store path, its content id, and the ids
of the other slice elements it references. -/
structure SliceElem where
  path : String
  id : FSId
  refs : List FSId
deriving DecidableEq

/-- `Slice` from `fstate.hh`: the normal form — root ids plus elements. -/
structure Slice where
  roots : List FSId
  elems : List SliceElem
deriving DecidableEq

/-- Typed view of the ATerm expressions manipulated by `fstate.cc`.
`bad` stands for any term matching none of the documented shapes
(`ATmatch` failure). -/
inductive FTerm where
  | slice (roots : List FSId) (elems : List SliceElem)
  | derive (outs : List (String × FSId)) (ins : List FSId)
      (builder : String) (platform : String)
      (bnds : List (String × String))
  | bad
deriving DecidableEq

/-- The error kinds of §7 of the spec, mapped from the throw sites of the
source, plus `outOfFuel`, which marks exhaustion of the fuel that bounds
the unbounded loops of the C++ code (i.e. divergence, not an exception). -/
inductive NixError where
  | badTerm
  | cannotRead
  | storeError
  | sysError
  | platformMismatch
  | outputObstructed
  | pathObstructed
  | buildError
  | buildIncomplete
  | emptySlice
  | outOfFuel
deriving DecidableEq

/-- Outcome of attempting to fork/exec/wait on the builder child process in
`runProgram`; `done newFsys exitOk` gives the filesystem as left by the
child together with whether it exited with status 0. -/
inductive RunOutcome where
  | forkFail
  | waitFail
  | done (newFsys : List (String × FSId)) (exitOk : Bool)
deriving DecidableEq

/-- Mutable world state threaded through the engine.
`fsys` maps every existing path to the content hash of what is on disk at
that path; `path2Id` is the `dbPath2Id` table; `successors` is the
`dbSuccessors` table.  `runEvents` and `expandEvents` are ghost logs
recording each invocation of `runProgram` and `expandId`; `counter` is the
static counter used to name temporary build directories. -/
structure St where
  fsys : List (String × FSId)
  path2Id : List (String × FSId)
  successors : List (FSId × FSId)
  runEvents : List (String × List (String × String))
  expandEvents : List (FSId × String)
  counter : Nat
deriving DecidableEq

/-- Static configuration: the host platform tag (`thisSystem`), the
immutable store contents (id to stored term; `none` means the term file is
absent or unreadable), which content blobs are locally present (consulted
by `expandId`), the semantics of executing a builder, and whether opening
the log pipe fails. -/
structure Config where
  thisSystem : String
  store : FSId → Option FTerm
  blobs : FSId → Bool
  builderSem : String → List (String × String) → List (String × FSId) → RunOutcome
  logFails : Bool

/-- Modelled from the spec (§4.2): `pathExists(path)` of the store adapter;
true iff the path is present in the filesystem. -/
def pathExists (fs : List (String × FSId)) (p : String) : Bool :=
  match fs with
  | [] => false
  | e :: rest => if e.1 = p then true else pathExists rest p

/-- The content hash of what currently sits at a path (`hashPath` of the
store adapter; the active code of `fstate.cc` never calls it — it is used
here only to state properties about on-disk content). -/
def hashPath (fs : List (String × FSId)) (p : String) : Option FSId :=
  match fs with
  | [] => none
  | e :: rest => if e.1 = p then some e.2 else hashPath rest p

/-- `queryDB(nixDB, dbPath2Id, path, id)`: first-match lookup in the
path-to-id table. -/
def lookupStr (db : List (String × FSId)) (p : String) : Option FSId :=
  match db with
  | [] => none
  | e :: rest => if e.1 = p then some e.2 else lookupStr rest p

/-- `queryDB(nixDB, dbSuccessors, id, idSucc)`: first-match lookup in the
successor table. -/
def lookupId (db : List (FSId × FSId)) (i : FSId) : Option FSId :=
  match db with
  | [] => none
  | e :: rest => if e.1 = i then some e.2 else lookupId rest i

/-- Boolean list-of-characters comparison used to model recursive path
deletion: does the first list start with the second argument's... (first
argument is the candidate ancestor). -/
def pfxOf : List Char → List Char → Bool
  | [], _ => true
  | _ :: _, [] => false
  | a :: as, b :: bs => if a = b then pfxOf as bs else false

/-- Modelled from the spec: `deletePath(p)` deletes the tree rooted at `p`,
i.e. every existing path having `p` as an ancestor (string-prefix in this
flat path model), including `p` itself. -/
def deletePath (p : String) (fs : List (String × FSId)) : List (String × FSId) :=
  match fs with
  | [] => []
  | e :: rest =>
    if pfxOf p.data e.1.data = true then deletePath p rest
    else e :: deletePath p rest

/-- Decimal digits of a natural number, with structural fuel so that the
definition reduces inside the kernel. -/
def natToStrGo : Nat → Nat → List Char → List Char
  | 0, _, acc => acc
  | fuel + 1, n, acc =>
    if n < 10 then Char.ofNat (48 + n % 10) :: acc
    else natToStrGo fuel (n / 10) (Char.ofNat (48 + n % 10) :: acc)

/-- Decimal rendering of a natural number. -/
def natToStr (n : Nat) : String := String.mk (natToStrGo (n + 1) n [])

/-- The name of the temporary build directory created by `runProgram`:
`/tmp/nix-<pid>-<counter>` in the source; the pid is constant for the
process, so only the counter is modelled. -/
def tmpName (n : Nat) : String := String.append ("/tmp/nix-") (natToStr n)

/-- `registerPath(path, id)` of the store adapter: record the path-to-id
mapping (new entries shadow older ones under first-match lookup). -/
def registerPath (p : String) (i : FSId) (st : St) : St :=
  { st with path2Id := (p, i) :: st.path2Id }

/-- Modelled from the spec (§4.2): `expandId(id, targetPath)` of the store
adapter (in `store.cc`, not under `src/`) materialises the blob whose
content hash is `id` at `targetPath`, failing with a store error when the
content is not locally present.  So that an installed element passes the
realiser's installation check and realisation is idempotent (§4.6, §8
scenario 1), the materialised path is registered under its content id. -/
def expandId (C : Config) (i : FSId) (p : String) (st : St) :
    Except NixError Unit × St :=
  if C.blobs i then
    (Except.ok (),
      { st with
        fsys := (p, i) :: st.fsys,
        path2Id := (p, i) :: st.path2Id,
        expandEvents := (i, p) :: st.expandEvents })
  else (Except.error NixError.storeError, st)

/-- `runProgram(program, env)` of `fstate.cc` lines 38-119: open the log
pipe, create the temporary working directory, fork the builder child, wait
for it, and fail unless it exited with status 0.  The scoped `AutoDelete
delTmpDir(tmpDir)` guard (lines 21-34, 55) deletes the temporary directory
on every exit path after its creation, which the C++ destructor semantics
guarantee; each exit path below therefore applies `deletePath` to the
directory.  The ghost `runEvents` log records the invocation. -/
def runProgram (C : Config) (program : String) (env : List (String × String))
    (st0 : St) : Except NixError Unit × St :=
  let st := { st0 with runEvents := (program, env) :: st0.runEvents }
  -- popen of the tee pipe; on failure a SysError is thrown before the
  -- temporary directory is created
  if C.logFails then (Except.error NixError.sysError, st)
  else
    let tmpDir := tmpName st.counter
    -- mkdir(tmpDir, 0777); on failure a SysError is thrown and no
    -- AutoDelete guard has been constructed yet
    if pathExists st.fsys tmpDir = true then
      (Except.error NixError.sysError, { st with counter := st.counter + 1 })
    else
      let st1 := { st with
        fsys := (tmpDir, 0) :: st.fsys,
        counter := st.counter + 1 }
      match C.builderSem program env st1.fsys with
      | RunOutcome.forkFail =>
        -- throw SysError("unable to fork"); AutoDelete fires
        (Except.error NixError.sysError,
          { st1 with fsys := deletePath tmpDir st1.fsys })
      | RunOutcome.waitFail =>
        -- throw Error("unable to wait for child"); AutoDelete fires
        (Except.error NixError.buildError,
          { st1 with fsys := deletePath tmpDir st1.fsys })
      | RunOutcome.done newFsys exitOk =>
        -- child ran (possibly mutating the filesystem); AutoDelete fires
        let st2 := { st1 with fsys := deletePath tmpDir newFsys }
        if exitOk then (Except.ok (), st2)
        else (Except.error NixError.buildError, st2)

/-- The installation check of `realiseSlice` (lines 577-591): walk the
elements in order; an element registered under a different id, or
unregistered but present on disk, is an obstruction; the first element that
is unregistered and absent makes the loop set `missing` and break.  Returns
the final value of `missing` on success. -/
def checkElems (st : St) : List SliceElem → Except NixError Bool
  | [] => Except.ok false
  | e :: rest =>
    match lookupStr st.path2Id e.path with
    | none =>
      if pathExists st.fsys e.path = true then
        Except.error NixError.pathObstructed
      else Except.ok true
    | some i =>
      if i = e.id then checkElems st rest
      else Except.error NixError.pathObstructed

/-- The expansion loop of `realiseSlice` (lines 598-604): expand every
element's id at its path, in order. -/
def expandElems (C : Config) : List SliceElem → St → Except NixError Unit × St
  | [], st => (Except.ok (), st)
  | e :: rest, st =>
    match expandId C e.id e.path st with
    | (Except.ok _, st1) => expandElems C rest st1
    | (Except.error err, st1) => (Except.error err, st1)

/-- `realiseSlice(slice)` of `fstate.cc` lines 567-605. -/
def realiseSlice (C : Config) (slice : Slice) (st : St) :
    Except NixError Unit × St :=
  if slice.elems.length = 0 then (Except.error NixError.emptySlice, st)
  else
    match checkElems st slice.elems with
    | Except.error e => (Except.error e, st)
    | Except.ok false => (Except.ok (), st)   -- "already installed"
    | Except.ok true => expandElems C slice.elems st

/-- The successor shortcut of `normaliseFState` (lines 469-473):
`while (queryDB(nixDB, dbSuccessors, id, idSucc)) id = parseHash(idSucc);`
The C++ loop is unbounded; fuel exhaustion (`none`) models divergence. -/
def chase (db : List (FSId × FSId)) : Nat → FSId → Option FSId
  | 0, _ => none
  | n + 1, i =>
    match lookupId db i with
    | none => some i
    | some i2 => chase db n i2

/-- The environment-assembly loop (lines 517-525): `env[s1] = s2` into a
`map<string,string>`, so a later binding for the same name wins. -/
def envInsert (m : List (String × String)) (k v : String) :
    List (String × String) :=
  match m with
  | [] => [(k, v)]
  | e :: rest => if e.1 = k then (k, v) :: rest else e :: envInsert rest k v

/-- Tail-recursive worker of `buildEnv`. -/
def buildEnv1 (m : List (String × String)) :
    List (String × String) → List (String × String)
  | [] => m
  | b :: rest => buildEnv1 (envInsert m b.1 b.2) rest

/-- Fold the bindings list into the environment, later wins (the iteration
order of the C++ `map` is by key, which no claim observes). -/
def buildEnv (bnds : List (String × String)) : List (String × String) :=
  buildEnv1 [] bnds

/-- The output precondition loop (lines 539-542): throw
`Error("path ... exists")` (**OutputObstructed**) at the first declared
output path that already exists. -/
def checkOutputs (st : St) : List (String × FSId) → Except NixError Unit
  | [] => Except.ok ()
  | o :: rest =>
    if pathExists st.fsys o.1 = true then Except.error NixError.outputObstructed
    else checkOutputs st rest

/-- The output postcondition loop (lines 551-561): for each declared output
in order, throw `Error("path ... does not exist")` (**BuildIncomplete**) if
it is absent, otherwise `registerPath(path, declaredId)` and push the
declared id onto the slice roots.  The source also computes
`filterReferences(path, inPaths)` here and discards the result. -/
def registerOuts : List (String × FSId) → St → Except NixError (List FSId) × St
  | [], st => (Except.ok [], st)
  | o :: rest, st =>
    if pathExists st.fsys o.1 = true then
      match registerOuts rest (registerPath o.1 o.2 st) with
      | (Except.ok roots, st1) => (Except.ok (o.2 :: roots), st1)
      | (Except.error e, st1) => (Except.error e, st1)
    else (Except.error NixError.buildIncomplete, st)

/-- The input loop of `normaliseFState` (lines 498-510): for each input id
in order, normalise it (through the supplied recursive entry `norm`),
realise the resulting slice, and accumulate its elements.  The source also
collects the element paths into `inPathsSet`, used only for the discarded
`filterReferences` call. -/
def normaliseInsWith (C : Config)
    (norm : FSId → St → Except NixError Slice × St) :
    List FSId → St → Except NixError (List SliceElem) × St
  | [], st => (Except.ok [], st)
  | i :: rest, st =>
    match norm i st with
    | (Except.error e, st1) => (Except.error e, st1)
    | (Except.ok slice, st1) =>
      match realiseSlice C slice st1 with
      | (Except.error e, st2) => (Except.error e, st2)
      | (Except.ok _, st2) =>
        match normaliseInsWith C norm rest st2 with
        | (Except.ok elems, st3) => (Except.ok (slice.elems ++ elems), st3)
        | (Except.error e, st3) => (Except.error e, st3)

/-- `normaliseFState(id)` of `fstate.cc` lines 462-564, with fuel for the
unbounded successor loop and the recursion into inputs.

Note the derive branch: the returned `Slice` receives the declared output
ids as `roots` (line 558) but its `elems` list is never assigned — the
source's local `Slice slice;` keeps its default-empty `elems`, and the
accumulated input elements (`inElems`) and the `filterReferences` results
are dropped on the floor. -/
def normaliseFState (C : Config) : Nat → FSId → St → Except NixError Slice × St
  | 0, _, st => (Except.error NixError.outOfFuel, st)
  | fuel + 1, id0, st =>
    -- successor shortcut
    match chase st.successors (fuel + 1) id0 with
    | none => (Except.error NixError.outOfFuel, st)
    | some i =>
      -- termFromId: throw Error("cannot read aterm ...") when absent
      match C.store i with
      | none => (Except.error NixError.cannotRead, st)
      | some (FTerm.slice roots elems) =>
        -- already in normal form: parseSlice
        (Except.ok { roots := roots, elems := elems }, st)
      | some FTerm.bad => (Except.error NixError.badTerm, st)
      | some (FTerm.derive outs ins builder platform bnds) =>
        if platform ≠ C.thisSystem then
          -- checkPlatform (lines 124-129)
          (Except.error NixError.platformMismatch, st)
        else
          match normaliseInsWith C (normaliseFState C fuel) ins st with
          | (Except.error e, st1) => (Except.error e, st1)
          | (Except.ok _inElems, st1) =>
            match checkOutputs st1 outs with
            | Except.error e => (Except.error e, st1)
            | Except.ok _ =>
              match runProgram C builder (buildEnv bnds) st1 with
              | (Except.error e, st2) => (Except.error e, st2)
              | (Except.ok _, st2) =>
                match registerOuts outs st2 with
                | (Except.error e, st3) => (Except.error e, st3)
                | (Except.ok roots, st3) =>
                  (Except.ok { roots := roots, elems := [] }, st3)

/-! ### Concrete stores, configurations and states used by the witnesses -/

/-- The empty world: nothing on disk, empty databases and logs. -/
def emptySt : St :=
  { fsys := [], path2Id := [], successors := [], runEvents := [],
    expandEvents := [], counter := 0 }

/-- A builder semantics that leaves the filesystem unchanged and exits 0. -/
def noBuild : String → List (String × String) → List (String × FSId) →
    RunOutcome :=
  fun _ _ fs => RunOutcome.done fs true

/-- Base configuration: host platform tag `sys`, empty store, every blob
locally present, trivial builder, log pipe works. -/
def baseCfg : Config :=
  { thisSystem := "sys", store := fun _ => none, blobs := fun _ => true,
    builderSem := noBuild, logFails := false }

/-- Store holding, at id 10, the derivation of §8 scenario 3:
`Derive([("/s/out", 7)], [], "/bin/touch-out", "sys", [("OUT", "/s/out")])`,
with a builder that creates `/s/out` with content hashing to 7. -/
def cfgC1 : Config :=
  { baseCfg with
    store := fun i =>
      if i = 10 then
        some (FTerm.derive [("/s/out", 7)] [] ("/bin/touch-out") ("sys")
          [("OUT", "/s/out")])
      else none,
    builderSem := fun _ _ fs => RunOutcome.done (("/s/out", 7) :: fs) true }

/-- A successor table containing the cycle 0 → 0. -/
def stC2 : St := { emptySt with successors := [(0, 0)] }

/-- Store holding a well-formed slice at id 1 and nothing at id 2. -/
def cfgC8 : Config :=
  { baseCfg with
    store := fun i =>
      if i = 1 then some (FTerm.slice [3] [⟨"/s/a", 3, []⟩]) else none }

/-- Successor table with the broken hint 1 → 2 (no term stored at 2). -/
def stC8 : St := { emptySt with successors := [(1, 2)] }

/-! ### Helper lemmas -/

/-- Following the successor table never leaves a self-loop: the fuelled
chase exhausts any fuel, i.e. the C++ `while` loop never terminates. -/
lemma chase_self (db : List (FSId × FSId)) (i : FSId)
    (h : lookupId db i = some i) : ∀ n, chase db n i = none := by
  intro n
  induction n with
  | zero => rfl
  | succ k ih => simp [chase, h, ih]

/-! ### Claims C1, C2, C8 -/

/-- C1: for `Derive([("/s/out", Hout)], [], "/bin/touch-out", hostPlatform,
[("OUT", "/s/out")])` whose builder creates `/s/out` with content hashing
to `Hout` (= 7 here), the claim says `normaliseFState` returns a slice with
`roots = [Hout]` and `elems = [("/s/out", Hout, [])]`, with `/s/out`
registered under `Hout`.  Evaluating the code at exactly this input: the
roots and the registration are as claimed, and the produced content indeed
hashes to 7, but the returned slice's `elems` is `[]` — the source never
populates it (the `Slice slice;` of line 547 keeps default-empty `elems`),
contradicting the claimed element list. -/
theorem C1_simple_derive_eval :
    (normaliseFState cfgC1 2 10 emptySt).1 =
      Except.ok { roots := [7], elems := [] } ∧
    lookupStr ((normaliseFState cfgC1 2 10 emptySt).2).path2Id ("/s/out") =
      some 7 ∧
    hashPath ((normaliseFState cfgC1 2 10 emptySt).2).fsys ("/s/out") =
      some 7 :=
  ⟨rfl, rfl, rfl⟩

/-- C2: the claim says the successor-shortcut loop of `normaliseFState` is
bounded (visited set or iteration bound) so that a cycle cannot make it
loop forever.  The code (lines 469-473) has no such bound: on the
one-element cycle 0 → 0 the loop never exits — in the fuelled embedding,
EVERY fuel value is exhausted. -/
theorem C2_successor_cycle_diverges :
    ∀ fuel : Nat, normaliseFState baseCfg fuel 0 stC2 =
      (Except.error NixError.outOfFuel, stC2) := by
  intro fuel
  cases fuel with
  | zero => rfl
  | succ n =>
    have h : chase stC2.successors (n + 1) 0 = none :=
      chase_self stC2.successors 0 rfl (n + 1)
    simp [normaliseFState, h]

/-- C8: the claim says a successor edge whose target is missing or
unparsable is treated as a cache miss (re-verified, debug-logged, fall back
to the last good id).  In the code the chase (lines 469-473) rewrites the
id without any verification and `termFromId` (lines 157-164) then throws a
fatal `Error("cannot read aterm ...")`: with the broken hint 1 → 2 and a
perfectly good slice stored at 1, `normaliseFState 1` is a fatal error, not
a cache miss. -/
theorem C8_broken_successor_fatal :
    normaliseFState cfgC8 3 1 stC8 = (Except.error NixError.cannotRead, stC8) ∧
    cfgC8.store 1 = some (FTerm.slice [3] [⟨"/s/a", 3, []⟩]) ∧
    lookupId stC8.successors 1 = some 2 ∧
    cfgC8.store 2 = none :=
  ⟨rfl, rfl, rfl, rfl⟩

/-! ### Claims C3, C4, C5 -/

/-- If some declared output path exists, the output-precondition loop
(lines 539-542) throws `OutputObstructed`. -/
lemma checkOutputs_obstructed (st : St) :
    ∀ (outs : List (String × FSId)) (p : String) (d : FSId),
      (p, d) ∈ outs → pathExists st.fsys p = true →
      checkOutputs st outs = Except.error NixError.outputObstructed := by
  intro outs
  induction outs with
  | nil => intro p d h _; exact absurd h (List.not_mem_nil _)
  | cons o rest ih =>
    intro p d hmem hex
    by_cases ho : pathExists st.fsys o.1 = true
    · simp [checkOutputs, ho]
    · rcases List.mem_cons.mp hmem with heq | hrest
      · exfalso; apply ho; rw [← heq]; exact hex
      · simp only [checkOutputs, if_neg ho]
        exact ih p d hrest hex

/-- C3: for a `Derive` whose platform matches and whose inputs normalise
and realise successfully (reaching state `st1`), if one of its declared
output paths exists then `normaliseFState` fails with `OutputObstructed`
and returns `st1` unchanged — in particular no new entry is added to the
ghost `runEvents` log, i.e. `runProgram` is never invoked for this
derivation (the log would record the invocation). -/
theorem C3_obstructed_output_no_build (C : Config) (fuel : Nat)
    (id0 i : FSId) (st st1 : St) (outs : List (String × FSId))
    (ins : List FSId) (builder : String) (bnds : List (String × String))
    (inElems : List SliceElem) (p : String) (d : FSId)
    (hchase : chase st.successors (fuel + 1) id0 = some i)
    (hstore : C.store i =
      some (FTerm.derive outs ins builder C.thisSystem bnds))
    (hins : normaliseInsWith C (normaliseFState C fuel) ins st =
      (Except.ok inElems, st1))
    (hmem : (p, d) ∈ outs) (hex : pathExists st1.fsys p = true) :
    normaliseFState C (fuel + 1) id0 st =
      (Except.error NixError.outputObstructed, st1) := by
  have hco := checkOutputs_obstructed st1 outs p d hmem hex
  simp [normaliseFState, hchase, hstore, hins, hco]

/-- Store holding, at id 11, a no-input derivation declaring output
`/s/out` with id 7. -/
def cfgC3 : Config :=
  { baseCfg with
    store := fun i =>
      if i = 11 then
        some (FTerm.derive [("/s/out", 7)] [] ("/bin/b") ("sys") [])
      else none }

/-- World in which `/s/out` already exists (content hash 9). -/
def stC3 : St := { emptySt with fsys := [("/s/out", 9)] }

/-- Witness for C3: with `/s/out` pre-existing, normalising the derivation
at id 11 fails with `OutputObstructed` and the state — including the empty
`runEvents` log — is untouched. -/
theorem C3_witness :
    normaliseFState cfgC3 1 11 stC3 =
      (Except.error NixError.outputObstructed, stC3) :=
  C3_obstructed_output_no_build cfgC3 0 11 11 stC3 stC3 [("/s/out", 7)] []
    ("/bin/b") [] [] ("/s/out") 7 rfl rfl rfl (by simp) rfl

/-- C4: the output-postcondition loop (lines 551-561).  First conjunct: if
some declared output does not exist, the loop fails with `BuildIncomplete`.
Second conjunct: every entry of the path-to-id table after the loop was
either already there or names an existing path — `registerPath` is only
reached for paths that exist, so this loop never records a non-existent
path. -/
theorem C4_register_only_existing (outs : List (String × FSId)) (st : St) :
    ((∃ pd, pd ∈ outs ∧ pathExists st.fsys pd.1 = false) →
      (registerOuts outs st).1 = Except.error NixError.buildIncomplete) ∧
    (∀ pd, pd ∈ ((registerOuts outs st).2).path2Id →
      pd ∈ st.path2Id ∨ pathExists st.fsys pd.1 = true) := by
  induction outs generalizing st with
  | nil =>
    refine ⟨?_, ?_⟩
    · rintro ⟨pd, hpd, _⟩; exact absurd hpd (List.not_mem_nil _)
    · intro pd h; exact Or.inl h
  | cons o rest ih =>
    refine ⟨?_, ?_⟩
    · rintro ⟨pd, hpd, hfalse⟩
      simp only [registerOuts]
      by_cases ho : pathExists st.fsys o.1 = true
      · rw [if_pos ho]
        rcases List.mem_cons.mp hpd with heq | hrest
        · exfalso; rw [heq] at hfalse; rw [hfalse] at ho
          exact Bool.false_ne_true ho
        · have h1 := (ih (registerPath o.1 o.2 st)).1 ⟨pd, hrest, hfalse⟩
          rcases hro : registerOuts rest (registerPath o.1 o.2 st) with ⟨r1, st2⟩
          rw [hro] at h1
          have h1' : r1 = Except.error NixError.buildIncomplete := h1
          rw [h1']
      · rw [if_neg ho]
    · intro pd hmem2
      simp only [registerOuts] at hmem2
      by_cases ho : pathExists st.fsys o.1 = true
      · rw [if_pos ho] at hmem2
        rcases hro : registerOuts rest (registerPath o.1 o.2 st) with ⟨r1, st2⟩
        rw [hro] at hmem2
        have h2 := (ih (registerPath o.1 o.2 st)).2 pd
        rw [hro] at h2
        have hmem3 : pd ∈ st2.path2Id := by
          cases r1 with
          | ok v => exact hmem2
          | error e => exact hmem2
        have h3 := h2 hmem3
        rcases h3 with hin | hex
        · rcases List.mem_cons.mp hin with heq | hst
          · right; rw [heq]; exact ho
          · left; exact hst
        · right; exact hex
      · rw [if_neg ho] at hmem2
        exact Or.inl hmem2

/-- Witness for C4: with nothing on disk, registering the declared output
`("/s/x", 5)` fails with `BuildIncomplete`, and the (unchanged) table holds
no entry for a non-existent path. -/
theorem C4_witness :
    (registerOuts [("/s/x", 5)] emptySt).1 =
      Except.error NixError.buildIncomplete ∧
    (∀ pd, pd ∈ ((registerOuts [("/s/x", 5)] emptySt).2).path2Id →
      pd ∈ emptySt.path2Id ∨ pathExists emptySt.fsys pd.1 = true) :=
  ⟨(C4_register_only_existing [("/s/x", 5)] emptySt).1
      ⟨("/s/x", 5), by simp, rfl⟩,
    (C4_register_only_existing [("/s/x", 5)] emptySt).2⟩

/-- C5: for a `Derive` whose platform tag differs from `thisSystem`,
`normaliseFState` fails with `PlatformMismatch` and the returned state is
the input state — before realising any input, running any builder, or
registering any path (`checkPlatform`, lines 124-129, called at line 492
before the input loop). -/
theorem C5_platform_gate (C : Config) (fuel : Nat) (id0 i : FSId) (st : St)
    (outs : List (String × FSId)) (ins : List FSId)
    (builder platform : String) (bnds : List (String × String))
    (hchase : chase st.successors (fuel + 1) id0 = some i)
    (hstore : C.store i = some (FTerm.derive outs ins builder platform bnds))
    (hplat : platform ≠ C.thisSystem) :
    normaliseFState C (fuel + 1) id0 st =
      (Except.error NixError.platformMismatch, st) := by
  simp [normaliseFState, hchase, hstore, hplat]

/-- Store holding, at id 12, a derivation whose platform tag `other` does
not match the host tag `sys`. -/
def cfgC5 : Config :=
  { baseCfg with
    store := fun i =>
      if i = 12 then
        some (FTerm.derive [("/s/out", 7)] [] ("/bin/b") ("other") [])
      else none }

/-- Witness for C5: normalising the mismatched derivation fails with
`PlatformMismatch` and the world is untouched. -/
theorem C5_witness :
    normaliseFState cfgC5 1 12 emptySt =
      (Except.error NixError.platformMismatch, emptySt) :=
  C5_platform_gate cfgC5 0 12 12 emptySt [("/s/out", 7)] [] ("/bin/b")
    ("other") [] rfl rfl (by decide)

/-! ### Claim C6 -/

/-- Two-element slice whose second element is obstructed. -/
def sliceC6 : Slice :=
  { roots := [5, 6], elems := [⟨"/s/a", 5, []⟩, ⟨"/s/b", 6, []⟩] }

/-- World in which `/s/b` exists with content hash 9 and is registered
under 9 (≠ 6, the declared id of the second element), while `/s/a` is
unregistered and absent. -/
def stC6 : St := { emptySt with fsys := [("/s/b", 9)], path2Id := [("/s/b", 9)] }

/-- C6 counterexample: the slice `sliceC6` has the element
`("/s/b", 6, [])` whose path is registered in `dbPath2Id` under 9 ≠ 6 (and
whose on-disk content hashes to 9), yet `realiseSlice` does NOT raise
`PathObstructed` — it succeeds.  The installation check (lines 577-591)
breaks at the first missing element (`/s/a`: unregistered and absent)
before ever examining `/s/b`, and the expansion loop then rewrites every
element. -/
theorem C6_cex :
    (⟨"/s/b", 6, []⟩ : SliceElem) ∈ sliceC6.elems ∧
    lookupStr stC6.path2Id ("/s/b") = some 9 ∧
    hashPath stC6.fsys ("/s/b") = some 9 ∧
    (9 : FSId) ≠ 6 ∧
    (realiseSlice baseCfg sliceC6 stC6).1 = Except.ok () :=
  ⟨by decide, rfl, rfl, by decide, rfl⟩

/-- If, walking the elements in order, every element before `e` is
installed (registered under its own id) and `e` is obstructed (registered
under a different id, or unregistered but present on disk), the
installation check throws `PathObstructed`. -/
lemma checkElems_pre (st : St) (e : SliceElem)
    (hobs : (∃ j, lookupStr st.path2Id e.path = some j ∧ j ≠ e.id) ∨
      (lookupStr st.path2Id e.path = none ∧
        pathExists st.fsys e.path = true)) :
    ∀ (pre rest : List SliceElem),
      (∀ x, x ∈ pre → lookupStr st.path2Id x.path = some x.id) →
      checkElems st (pre ++ e :: rest) =
        Except.error NixError.pathObstructed := by
  intro pre
  induction pre with
  | nil =>
    intro rest _
    rcases hobs with ⟨j, hj, hne⟩ | ⟨hn, hex⟩
    · simp [checkElems, hj, hne]
    · simp [checkElems, hn, hex]
  | cons x pre' ih =>
    intro rest hpre
    have hx := hpre x (List.mem_cons_self _ _)
    simp only [List.cons_append, checkElems, hx, if_pos rfl]
    exact ih rest (fun y hy => hpre y (List.mem_cons_of_mem _ hy))

/-- C6 amended: `realiseSlice` raises `PathObstructed` for an obstructed
element — a path registered under an id different from the element's
contentId, or unregistered but existing on disk — PROVIDED every element
placed before it in the slice is installed (registered under its own id);
the installation check stops at the first missing element, so an obstructed
element coming after a missing one is not detected (see `C6_cex`). -/
theorem C6_amended_obstruction (C : Config) (s : Slice) (st : St)
    (pre rest : List SliceElem) (e : SliceElem)
    (helems : s.elems = pre ++ e :: rest)
    (hpre : ∀ x, x ∈ pre → lookupStr st.path2Id x.path = some x.id)
    (hobs : (∃ j, lookupStr st.path2Id e.path = some j ∧ j ≠ e.id) ∨
      (lookupStr st.path2Id e.path = none ∧
        pathExists st.fsys e.path = true)) :
    realiseSlice C s st = (Except.error NixError.pathObstructed, st) := by
  have hc := checkElems_pre st e hobs pre rest hpre
  have hlen : ¬(pre ++ e :: rest).length = 0 := by simp
  simp only [realiseSlice, helems, if_neg hlen, hc]

/-- One-element slice declaring `/s/a` with content id 5. -/
def sliceC6w : Slice := { roots := [5], elems := [⟨"/s/a", 5, []⟩] }

/-- World in which `/s/a` was created out-of-band: its content hashes to
9 ≠ 5 and it is registered under 9. -/
def stC6w : St := { emptySt with fsys := [("/s/a", 9)], path2Id := [("/s/a", 9)] }

/-- Witness for the amended C6: the obstructed element is first in the
slice, so `realiseSlice` raises `PathObstructed`. -/
theorem C6_amended_witness :
    realiseSlice baseCfg sliceC6w stC6w =
      (Except.error NixError.pathObstructed, stC6w) :=
  C6_amended_obstruction baseCfg sliceC6w stC6w [] [] ⟨"/s/a", 5, []⟩ rfl
    (fun x hx => absurd hx (List.not_mem_nil _))
    (Or.inl ⟨9, rfl, by decide⟩)

/-! ### Claim C7 -/

/-- A successful expansion loop prepends exactly one registration
`(path, id)` per element, in order, to the path-to-id table. -/
lemma expandElems_path2Id (C : Config) :
    ∀ (l : List SliceElem) (st st1 : St) (u : Unit),
      expandElems C l st = (Except.ok u, st1) →
      st1.path2Id =
        (l.reverse.map fun x => (x.path, x.id)) ++ st.path2Id := by
  intro l
  induction l with
  | nil =>
    intro st st1 u h
    have hst : st = st1 := congrArg Prod.snd h
    rw [← hst]; simp
  | cons e rest ih =>
    intro st st1 u h
    by_cases hb : C.blobs e.id = true
    · have hstep : expandElems C (e :: rest) st =
          expandElems C rest
            { st with
              fsys := (e.path, e.id) :: st.fsys,
              path2Id := (e.path, e.id) :: st.path2Id,
              expandEvents := (e.id, e.path) :: st.expandEvents } := by
        simp [expandElems, expandId, hb]
      rw [hstep] at h
      have := ih _ _ u h
      rw [this]
      simp [List.reverse_cons, List.map_append, List.append_assoc]
    · exfalso
      have hstep : expandElems C (e :: rest) st =
          (Except.error NixError.storeError, st) := by
        simp [expandElems, expandId, hb]
      rw [hstep] at h
      exact Except.noConfusion (congrArg Prod.fst h)

/-- First-match lookup skips a block of entries none of whose keys is the
looked-up path. -/
lemma lookupStr_append_none :
    ∀ (entries db : List (String × FSId)) (p : String),
      (∀ q, q ∈ entries → q.1 ≠ p) →
      lookupStr (entries ++ db) p = lookupStr db p := by
  intro entries
  induction entries with
  | nil => intro db p _; rfl
  | cons q qs ih =>
    intro db p h
    have hq := h q (List.mem_cons_self _ _)
    simp only [List.cons_append, lookupStr, if_neg hq]
    exact ih db p (fun r hr => h r (List.mem_cons_of_mem _ hr))

/-- After expanding a list of elements with pairwise-distinct paths, each
element's path is registered under exactly its content id. -/
lemma lookup_expanded :
    ∀ (l : List SliceElem) (db : List (String × FSId)) (e : SliceElem),
      e ∈ l → (l.map SliceElem.path).Nodup →
      lookupStr ((l.reverse.map fun x => (x.path, x.id)) ++ db) e.path =
        some e.id := by
  intro l
  induction l with
  | nil => intro db e he _; exact absurd he (List.not_mem_nil _)
  | cons a rest ih =>
    intro db e he hnd
    have hshape : ((a :: rest).reverse.map fun x => (x.path, x.id)) ++ db =
        (rest.reverse.map fun x => (x.path, x.id)) ++
          ((a.path, a.id) :: db) := by
      simp [List.reverse_cons, List.map_append, List.append_assoc]
    rw [hshape]
    have hnd2 := List.nodup_cons.mp
      (show (a.path :: rest.map SliceElem.path).Nodup from hnd)
    rcases List.mem_cons.mp he with heq | hrest
    · rw [heq]
      rw [lookupStr_append_none _ _ _ ?hq]
      · simp [lookupStr]
      case hq =>
        intro q hqmem hqp
        rcases List.mem_map.mp hqmem with ⟨x, hx, hqx⟩
        have hxrest : x ∈ rest := List.mem_reverse.mp hx
        have hxa : x.path = a.path := by rw [← hqp, ← hqx]
        exact hnd2.1 (List.mem_map.mpr ⟨x, hxrest, hxa⟩)
    · exact ih ((a.path, a.id) :: db) e hrest hnd2.2

/-- If every element's path is registered under its own content id, the
installation check succeeds reporting nothing missing. -/
lemma checkElems_installed (st : St) :
    ∀ (l : List SliceElem),
      (∀ e, e ∈ l → lookupStr st.path2Id e.path = some e.id) →
      checkElems st l = Except.ok false := by
  intro l
  induction l with
  | nil => intro _; rfl
  | cons e rest ih =>
    intro h
    have he := h e (List.mem_cons_self _ _)
    simp only [checkElems, he, if_pos rfl]
    exact ih (fun x hx => h x (List.mem_cons_of_mem _ hx))

/-- C7: realisation is idempotent.  If `realiseSlice` succeeds on a slice
whose element paths are pairwise distinct, a second call is a no-op: the
installation check finds every element registered under its own id, no
element is expanded (state — including the ghost `expandEvents` log —
returned unchanged), and no error is raised. -/
theorem C7_realise_idempotent (C : Config) (s : Slice) (st st1 : St)
    (hnd : (s.elems.map SliceElem.path).Nodup)
    (h : realiseSlice C s st = (Except.ok (), st1)) :
    realiseSlice C s st1 = (Except.ok (), st1) := by
  by_cases hlen : s.elems.length = 0
  · exfalso
    simp only [realiseSlice, if_pos hlen] at h
    exact Except.noConfusion (congrArg Prod.fst h)
  · simp only [realiseSlice, if_neg hlen] at h ⊢
    rcases hck : checkElems st s.elems with e | b
    · rw [hck] at h
      exact absurd (congrArg Prod.fst h) (fun hc => Except.noConfusion hc)
    · rw [hck] at h
      cases b with
      | false =>
        have hst : st = st1 := congrArg Prod.snd h
        rw [← hst, hck]
      | true =>
        have hdb := expandElems_path2Id C s.elems st st1 () h
        have hins : ∀ e, e ∈ s.elems →
            lookupStr st1.path2Id e.path = some e.id := by
          intro e he
          rw [hdb]
          exact lookup_expanded s.elems st.path2Id e he hnd
        have hck1 := checkElems_installed st1 s.elems hins
        rw [hck1]

/-- One-element slice used by the C7 witness. -/
def sliceC7 : Slice := { roots := [5], elems := [⟨"/s/a", 5, []⟩] }

/-- The state produced by realising `sliceC7` in the empty world: `/s/a`
materialised with content 5, registered, one expansion logged. -/
def stC7 : St :=
  { emptySt with
    fsys := [("/s/a", 5)]
    path2Id := [("/s/a", 5)]
    expandEvents := [(5, "/s/a")] }

/-- Witness for C7: realising `sliceC7` from the empty world succeeds and
produces `stC7`; calling `realiseSlice` again from `stC7` returns `stC7`
unchanged with no error. -/
theorem C7_witness :
    realiseSlice baseCfg sliceC7 stC7 = (Except.ok (), stC7) :=
  C7_realise_idempotent baseCfg sliceC7 emptySt stC7 (by decide) rfl

/-! ### Claim C9 -/

/-- A character list is a string-prefix of itself. -/
lemma pfxOf_refl : ∀ l : List Char, pfxOf l l = true := by
  intro l
  induction l with
  | nil => rfl
  | cons a as ih => simp [pfxOf, ih]

/-- Recursively deleting a path removes it from the filesystem. -/
lemma pathExists_deletePath (p : String) :
    ∀ fs : List (String × FSId), pathExists (deletePath p fs) p = false := by
  intro fs
  induction fs with
  | nil => rfl
  | cons e rest ih =>
    by_cases hp : pfxOf p.data e.1.data = true
    · simp only [deletePath, if_pos hp]
      exact ih
    · have hne : e.1 ≠ p := by
        intro hcontra
        apply hp
        rw [hcontra]
        exact pfxOf_refl p.data
      simp only [deletePath, if_neg hp, pathExists, if_neg hne]
      exact ih

/-- C9: for every invocation of `runProgram` — returning normally or
failing through any path (log-pipe failure, fork failure, wait failure,
builder non-zero exit) — the temporary working directory
`tmpName st.counter`, fresh when the call starts, is absent from the
filesystem when control returns: the scoped `AutoDelete` guard deletes it
on every exit path after its creation. -/
theorem C9_tmpdir_cleanup (C : Config) (program : String)
    (env : List (String × String)) (st : St)
    (hfresh : pathExists st.fsys (tmpName st.counter) = false) :
    pathExists ((runProgram C program env st).2).fsys
      (tmpName st.counter) = false := by
  have hcond : ¬pathExists st.fsys (tmpName st.counter) = true := by
    rw [hfresh]; exact Bool.false_ne_true
  by_cases hl : C.logFails = true
  · simp only [runProgram, if_pos hl]
    exact hfresh
  · simp only [runProgram, if_neg hl, if_neg hcond]
    cases hb : C.builderSem program env ((tmpName st.counter, 0) :: st.fsys) with
    | forkFail => exact pathExists_deletePath _ _
    | waitFail => exact pathExists_deletePath _ _
    | done newFsys exitOk =>
      cases exitOk with
      | false => exact pathExists_deletePath _ _
      | true => exact pathExists_deletePath _ _

/-- Witness for C9: running a builder from the empty world leaves no trace
of the temporary directory `/tmp/nix-0`. -/
theorem C9_witness :
    pathExists ((runProgram baseCfg ("/bin/b") [] emptySt).2).fsys
      (tmpName emptySt.counter) = false :=
  C9_tmpdir_cleanup baseCfg ("/bin/b") [] emptySt rfl

/-! ### Claim C10 -/

/-- C10: when every declared output path exists, the output-postcondition
loop registers each path under its DECLARED id and returns exactly the
declared ids as roots — the state's `fsys` (and hence the actual content
hash of any output) is consulted only through `pathExists`, never through
`hashPath`, so an output whose on-disk content hashes to a different id is
still registered under the declared id and rooted. -/
theorem C10_declared_id_registered (outs : List (String × FSId)) (st : St)
    (hall : ∀ pd, pd ∈ outs → pathExists st.fsys pd.1 = true) :
    registerOuts outs st =
      (Except.ok (outs.map Prod.snd),
        { st with path2Id := outs.reverse ++ st.path2Id }) := by
  induction outs generalizing st with
  | nil => rfl
  | cons o rest ih =>
    have ho := hall o (List.mem_cons_self _ _)
    have ih' := ih (registerPath o.1 o.2 st)
      (fun pd hpd => hall pd (List.mem_cons_of_mem _ hpd))
    simp only [registerOuts, if_pos ho]
    rw [ih']
    simp [registerPath, List.reverse_cons, List.append_assoc]

/-- World in which `/s/out` exists but its content hashes to 9, not to the
declared id 7. -/
def stC10 : St := { emptySt with fsys := [("/s/out", 9)] }

/-- Witness for C10: the on-disk content of `/s/out` hashes to 9 ≠ 7, yet
the loop registers `/s/out` under the declared id 7 and returns root 7. -/
theorem C10_witness :
    registerOuts [("/s/out", 7)] stC10 =
      (Except.ok [7], { stC10 with path2Id := [("/s/out", 7)] }) ∧
    hashPath stC10.fsys ("/s/out") = some 9 ∧ (9 : FSId) ≠ 7 :=
  ⟨C10_declared_id_registered [("/s/out", 7)] stC10 (by decide), rfl,
    by decide⟩

end Fstate
